import Mathlib

/-!
Verification of the conversational intent-resolution engine of the
Smart Clearance System backend (`src/backend/app.py`).

Shallow embedding conventions:
* The engine receives the text already lower-cased and stripped by the
  endpoint (`user_text = input.text.lower().strip()`), together with the
  role-scoped stock list fetched from the repository, the caller-supplied
  context object and the current date (`date.today()`).
* Python dictionaries that the engine only *reads* through `.get` are
  modelled as structures with `Option` fields (absent key = `none`).
  An indexing access `d['k']` on a possibly-missing key is modelled in
  the `Except Unit` monad: a missing key is a raised `KeyError`, i.e.
  `.error ()`.
* Stock rows coming from the repository are well-typed (`Item`); the
  snapshots round-tripped through the caller's context are `ItemD`
  (every field optional, since the caller may forge the context).
* Python integers are `Int` (floor division `//` is `Int.fdiv`); the
  REAL `price` column is `Option Rat` (`NULL` = `none`); Python dates
  are `PyDate` triples with the proleptic Gregorian ordinal arithmetic
  that CPython's `datetime.date` uses.
* Responses are modelled by their `action` tag, the optional committed
  `order` payload, the `context` handed back to the caller, and the list
  of SQL side effects. The human-readable message text and the `data`
  payload are not modelled; dictionary reads that the source performs
  while building the message are kept (they decide KeyError behaviour).
* Character predicates (`isdigit`, `lower`, `title`) are modelled for
  ASCII text, which is all the lexicon and the claims exercise.
-/

deriving instance DecidableEq for Except

namespace Clearance

/-! ### Python string primitives -/

/-- Prefix test on character lists (helper for substring containment). -/
def listPre : List Char → List Char → Bool
  | [], _ => true
  | _ :: _, [] => false
  | a :: as, b :: bs => a == b && listPre as bs

/-- Substring containment on character lists. -/
def listSub (sub : List Char) : List Char → Bool
  | [] => listPre sub []
  | b :: bs => listPre sub (b :: bs) || listSub sub bs

/-- Python `sub in s` on strings. -/
def pyIn (sub s : String) : Bool := listSub sub.data s.data

/-- Python `any(w in text for w in ws)`. -/
def anySub (ws : List String) (text : String) : Bool := ws.any fun w => pyIn w text

/-- Worker for `pySplit`: the accumulator holds the current token
reversed. -/
def splitWsGo : List Char → List Char → List String
  | [], acc => if acc.isEmpty then [] else [⟨acc.reverse⟩]
  | c :: cs, acc =>
    if c.isWhitespace then
      (if acc.isEmpty then [] else [(⟨acc.reverse⟩ : String)]) ++ splitWsGo cs []
    else splitWsGo cs (c :: acc)

/-- Python `text.split()`: split on whitespace, dropping empty pieces. -/
def pySplit (s : String) : List String := splitWsGo s.data []

/-- Python `s.strip()`. -/
def pyTrim (s : String) : String :=
  ⟨((s.data.dropWhile Char.isWhitespace).reverse.dropWhile Char.isWhitespace).reverse⟩

/-- Python `s.lower()` (ASCII). -/
def pyLower (s : String) : String := ⟨s.data.map Char.toLower⟩

/-- Python `word.isdigit()` (ASCII digits). -/
def pyIsDigit (w : String) : Bool := !w.data.isEmpty && w.data.all Char.isDigit

/-- Python `int(word)` for a digit-only token. -/
def pyToNat (w : String) : Nat := w.data.foldl (fun a c => a * 10 + (c.toNat - 48)) 0

/-- First whitespace token of `text` made of digits, as a number: the
`for word in text.split(): if word.isdigit(): ... break` scan. -/
def firstDigitTok (text : String) : Option Nat :=
  (pySplit text).findSome? fun w => if pyIsDigit w then some (pyToNat w) else none

/-- Worker for `pyTitle`; the flag says whether the previous character was
alphabetic. -/
def pyTitleGo : Bool → List Char → List Char
  | _, [] => []
  | prev, c :: cs =>
    (if c.isAlpha then (if prev then c.toLower else c.toUpper) else c) ::
      pyTitleGo c.isAlpha cs

/-- Python `s.title()` (ASCII). -/
def pyTitle (s : String) : String := ⟨pyTitleGo false s.data⟩

/-! ### Calendar dates (CPython `datetime.date`) -/

/-- A Python `datetime.date` value. -/
structure PyDate where
  year : Nat
  month : Nat
  day : Nat
deriving DecidableEq

/-- Gregorian leap year. -/
def isLeap (y : Nat) : Bool := y % 4 == 0 && (y % 100 != 0 || y % 400 == 0)

/-- Length of month `m` in a non-leap year (CPython `_DAYS_IN_MONTH`). -/
def monthLen (m : Nat) : Nat :=
  [31, 28, 31, 30, 31, 30, 31, 31, 30, 31, 30, 31].getD (m - 1) 0

/-- Days before month `m` in a non-leap year (CPython `_DAYS_BEFORE_MONTH`). -/
def daysBeforeMonthTab (m : Nat) : Nat :=
  [0, 31, 59, 90, 120, 151, 181, 212, 243, 273, 304, 334].getD (m - 1) 0

/-- Length of month `m` of year `y`. -/
def daysInMonth (y m : Nat) : Nat :=
  if m == 2 && isLeap y then 29 else monthLen m

/-- Days before January 1st of year `y`, counted from ordinal 0. -/
def daysBeforeYear (y : Nat) : Nat :=
  365 * (y - 1) + (y - 1) / 4 - (y - 1) / 100 + (y - 1) / 400

/-- Days before the first of month `m` of year `y`. -/
def daysBeforeMonth (y m : Nat) : Nat :=
  daysBeforeMonthTab m + (if 2 < m && isLeap y then 1 else 0)

/-- CPython `date.toordinal()`: day 1 is 0001-01-01. -/
def toOrdinal (d : PyDate) : Nat :=
  daysBeforeYear d.year + daysBeforeMonth d.year d.month + d.day

/-- CPython `date.fromordinal()` (`_ord2ymd`), by 400/100/4/1-year cycle
arithmetic. -/
def fromOrdinal (nn : Nat) : PyDate :=
  let n0 := nn - 1
  let n400 := n0 / 146097
  let r1 := n0 % 146097
  let n100 := r1 / 36524
  let r2 := r1 % 36524
  let n4 := r2 / 1461
  let r3 := r2 % 1461
  let n1 := r3 / 365
  let n := r3 % 365
  let year := n400 * 400 + 1 + n100 * 100 + n4 * 4 + n1
  if n1 == 4 || n100 == 4 then
    ⟨year - 1, 12, 31⟩
  else
    let leap := n1 == 3 && (n4 != 24 || n100 == 3)
    let month := (n + 50) / 32
    let preceding := daysBeforeMonthTab month + (if 2 < month && leap then 1 else 0)
    if n < preceding then
      let month1 := month - 1
      let preceding1 := preceding - (monthLen month1 + (if month1 == 2 && leap then 1 else 0))
      ⟨year, month1, n - preceding1 + 1⟩
    else
      ⟨year, month, n - preceding + 1⟩

/-- `d + timedelta(days=k)`. -/
def addDays (d : PyDate) (k : Nat) : PyDate := fromOrdinal (toOrdinal d + k)

/-- Python `a < b` on dates. -/
def dateLt (a b : PyDate) : Bool := toOrdinal a < toOrdinal b

/-- `(exp - today).days`, the `days_left` computation. -/
def daysLeft (today exp : PyDate) : Int := (toOrdinal exp : Int) - (toOrdinal today : Int)

/-- The check the Python `date` constructor performs (raises `ValueError`
otherwise). -/
def validDate (y m d : Nat) : Bool :=
  1 ≤ y && y ≤ 9999 && 1 ≤ m && m ≤ 12 && 1 ≤ d && d ≤ daysInMonth y m

/-! ### Lexicon (the keyword tables of `app.py`, in source order) -/

/-- `product_keywords` (identical lists at lines 668 and 1101). -/
def productKeywords : List String :=
  ["apple", "milk", "bread", "vegetable", "fruit", "dairy", "meat", "fish",
   "rice", "wheat", "oil", "sugar", "orange", "banana", "tomato", "potato",
   "onion", "chicken", "egg", "cheese", "butter", "yogurt"]

/-- The exact-match greeting phrases (identical at lines 652 and 1093). -/
def greetingPhrases : List String :=
  ["hello", "hi", "hey", "start", "hi there", "hello there"]

/-- Buyer search-intent trigger words (line 1104). -/
def searchWordsMid : List String :=
  ["find", "search", "looking for", "want", "need", "show", "available",
   "what", "get", "buy"]

/-- Buyer order-confirmation affirmation words (line 1047). -/
def affirmWords : List String := ["yes", "confirm", "order", "proceed", "ok", "okay"]

/-- Cancel words inside the `confirm_order` stage (line 1079). -/
def confirmCancelWords : List String := ["no", "cancel", "nevermind"]

/-- Buyer price-inquiry trigger words (line 1168). -/
def priceWords : List String := ["price", "cost", "cheap", "cheapest", "expensive", "budget"]

/-- Buyer expiry-query trigger words (line 1189). -/
def expiryWordsMid : List String := ["expir", "urgent", "critical", "soon"]

/-- Buyer top-level cancel words (line 1228). -/
def midCancelWords : List String := ["no", "cancel", "nevermind", "stop"]

/-- Buyer help trigger words (line 1236). -/
def midHelpWords : List String := ["help", "how", "what can"]

/-- `number_words` for selecting among listed options (line 997), in dict
insertion order; values are 0-based indices. -/
def numberWordsSel : List (String × Nat) :=
  [("1", 0), ("2", 1), ("3", 2), ("4", 3), ("5", 4), ("one", 0), ("first", 0),
   ("two", 1), ("second", 1), ("three", 2), ("third", 2), ("four", 3),
   ("fourth", 3), ("five", 4), ("fifth", 4)]

/-- Seller add-stock trigger phrases (line 660). -/
def addStockPhrases : List String :=
  ["add stock", "add item", "add product", "new stock", "new item",
   "create stock", "add new"]

/-- Seller summary trigger words (line 695). -/
def summaryWords : List String := ["summary", "overview", "status", "how much", "total"]

/-- Seller expiring-items trigger words (line 720). -/
def mgrExpiryWords : List String := ["expir", "urgent", "soon", "critical"]

/-- Seller search verbs (line 753). -/
def mgrSearchWords : List String := ["find", "search", "show", "check"]

/-- Seller help trigger words (line 787). -/
def mgrHelpWords : List String := ["help", "what can", "how"]

/-- Seller top-level cancel words (line 795). -/
def mgrCancelWords : List String := ["cancel", "stop", "nevermind", "no"]

/-- Wizard cancel words (line 814). -/
def wizCancelWords : List String := ["cancel", "stop", "nevermind"]

/-- Wizard confirm-step affirmation words (line 957). -/
def wizAffirmWords : List String := ["yes", "confirm", "add", "ok", "okay", "correct"]

/-- `number_words` of the wizard quantity step (line 847), in dict order. -/
def numberWordsWiz : List (String × Nat) :=
  [("one", 1), ("two", 2), ("three", 3), ("four", 4), ("five", 5), ("ten", 10),
   ("twenty", 20), ("thirty", 30), ("forty", 40), ("fifty", 50), ("hundred", 100)]

/-- Month-name table of the wizard date step (line 889), full names first. -/
def monthWords : List (String × Nat) :=
  [("january", 1), ("february", 2), ("march", 3), ("april", 4), ("may", 5),
   ("june", 6), ("july", 7), ("august", 8), ("september", 9), ("october", 10),
   ("november", 11), ("december", 12), ("jan", 1), ("feb", 2), ("mar", 3),
   ("apr", 4), ("jun", 6), ("jul", 7), ("aug", 8), ("sep", 9), ("oct", 10),
   ("nov", 11), ("dec", 12)]

/-! ### Data model -/

/-- A stock row as the repository returns it (well-typed; the engine never
reads `created_at`, so it is omitted). -/
structure Item where
  stock_id : Nat
  manager_id : String
  product_name : String
  quantity : Int
  expiry_date : PyDate
  price : Option Rat
  status : String
  manager_name : String
deriving DecidableEq

/-- A stock-item snapshot as carried in the caller's context: a JSON
dictionary, so every field the engine indexes may be missing (`none`).
`price` is doubly optional: the outer `Option` is key presence, the inner
is SQL `NULL`. Only the six keys the buyer flow indexes are modelled. -/
structure ItemD where
  stock_id : Option Nat
  product_name : Option String
  manager_name : Option String
  quantity : Option Int
  days_left : Option Int
  price : Option (Option Rat)
deriving DecidableEq

/-- The snapshot the engine serializes into the context: a repository item
with its computed `days_left`; every key present. -/
def Item.toD (it : Item) (dl : Int) : ItemD :=
  ⟨some it.stock_id, some it.product_name, some it.manager_name,
   some it.quantity, some dl, some it.price⟩

/-- An all-keys-missing snapshot (the forged dictionary `{}`). -/
def emptyD : ItemD := ⟨none, none, none, none, none, none⟩

/-- The caller-supplied context dictionary, restricted to the keys the
engine reads (all through `.get`, hence `Option`).  The wizard stores
`expiry_date` as a `"YYYY-MM-DD"` string and re-parses it at the confirm
step; the round trip is the identity on valid dates, so the date value is
stored directly. -/
structure Ctx where
  stage : Option String
  results : Option (List ItemD)
  selected_item : Option ItemD
  step : Option String
  product_name : Option String
  quantity : Option Int
  expiry_date : Option PyDate
  price : Option (Option Rat)
deriving DecidableEq

/-- The dictionary `{}`. -/
def emptyCtx : Ctx := ⟨none, none, none, none, none, none, none, none⟩

/-- The context `{"stage": "initial"}`. -/
def initCtx : Ctx := { emptyCtx with stage := some "initial" }

/-- The context `{"stage": "completed"}` returned by the order-commit turn. -/
def completedCtx : Ctx := { emptyCtx with stage := some "completed" }

/-- A SQL side effect performed by a turn. `updStockQty` writes only the
`quantity` column; `updStockQtyStatus` writes `quantity` and `status`. -/
inductive Effect where
  | insertOrder (stock_id : Nat) (middleman_id : String) (quantity : Int) (status : String)
  | updStockQty (stock_id : Nat) (quantity : Int)
  | updStockQtyStatus (stock_id : Nat) (quantity : Int) (status : String)
  | insertStock (manager_id : String) (product_name : Option String) (quantity : Option Int)
      (expiry_date : PyDate) (price : Option Rat) (status : String)
deriving DecidableEq

/-- A turn's observable outcome: symbolic action tag, the committed order
payload if any, the context echoed to the caller, and the SQL effects.
The message text and `data` payload are not modelled; the dictionary reads
the source performs to build them are (they decide KeyError behaviour). -/
structure Resp where
  action : String
  order : Option (Nat × Int)
  context : Ctx
  effects : List Effect
deriving DecidableEq

/-! ### Shared helpers -/

/-- Insert `x` after every element whose key is `≤ key x` (keeps a sorted
accumulator sorted and equal keys in arrival order). -/
def insEnd {α β : Type*} [LinearOrder β] (key : α → β) (x : α) : List α → List α
  | [] => [x]
  | y :: ys => if key y ≤ key x then y :: insEnd key x ys else x :: y :: ys

/-- Stable sort by key, as Python `list.sort(key=...)`. -/
def pySort {α β : Type*} [LinearOrder β] (key : α → β) (l : List α) : List α :=
  l.foldl (fun acc x => insEnd key x acc) []

/-- Python truthiness of a possibly-missing `price` value: `None` and `0`
are falsy. -/
def priceTruthy : Option Rat → Bool
  | none => false
  | some p => decide (p ≠ 0)

/-- Python truthiness of `context.get('results')`: present and non-empty. -/
def truthyRes : Option (List ItemD) → Bool
  | some (_ :: _) => true
  | _ => false

/-! ### Buyer flow: order-quantity rounding (lines 1048-1055) -/

/-- The committed-quantity computation of the `confirm_order` stage:
`order_qty = quantity if quantity else item['quantity']` (so a parsed `0`
falls back to the full available quantity), rounded by
`max(10, (order_qty // 10) * 10)`, then re-floored against availability. -/
def orderQty (req : Option Int) (avail : Int) : Int :=
  let oq0 : Int := match req with
    | some q => if q ≠ 0 then q else avail
    | none => avail
  let oq1 := max 10 (Int.fdiv oq0 10 * 10)
  if oq1 > avail then
    let f := Int.fdiv avail 10 * 10
    if f = 0 then avail else f
  else oq1

/-! ### Buyer flow: selection stage (lines 1000-1032) -/

/-- Number-word scan over `text.split()` (first dict entry wins). -/
def numberSel (text : String) : Option Nat :=
  numberWordsSel.findSome? fun p => if (pySplit text).contains p.1 then some p.2 else none

/-- Name-match scan: each candidate's `product_name` is indexed (KeyError
when missing), lower-cased, and matched as a substring or word-wise. -/
def nameSel (text : String) : List ItemD → Nat → Except Unit (Option Nat)
  | [], _ => .ok none
  | it :: rest, i =>
    match it.product_name with
    | none => .error ()
    | some pn =>
      let pnl := pyLower pn
      if pyIn pnl text || (pySplit pnl).any (fun w => pyIn w text) then .ok (some i)
      else nameSel text rest (i + 1)

/-- The keys the selection-confirmation message indexes on the chosen item
(line 1020): `product_name`, `manager_name`, `quantity`, `price`,
`days_left`. -/
def selAccess (it : ItemD) : Bool :=
  it.product_name.isSome && it.manager_name.isSome && it.quantity.isSome &&
    it.price.isSome && it.days_left.isSome

/-- The re-prompt (line 1028) indexes `product_name` of the first five
candidates while enumerating them; the context is returned unchanged. -/
def selReprompt (rs : List ItemD) (ctx : Ctx) : Except Unit Resp :=
  if (rs.take 5).all (fun it => it.product_name.isSome) then
    .ok ⟨"selection_prompt", none, ctx, []⟩
  else .error ()

/-- Common continuation once an index has (or has not) been resolved. -/
def selFinish (rs : List ItemD) (ctx : Ctx) : Option Nat → Except Unit Resp
  | some i =>
    if i < rs.length then
      let it := rs.getD i emptyD
      if selAccess it then
        .ok ⟨"product_selected", none,
          { emptyCtx with stage := some "confirm_order", selected_item := some it }, []⟩
      else .error ()
    else selReprompt rs ctx
  | none => selReprompt rs ctx

/-- The `awaiting_selection` stage handler. -/
def handleSelection (text : String) (rs : List ItemD) (ctx : Ctx) : Except Unit Resp :=
  match numberSel text with
  | some i => selFinish rs ctx (some i)
  | none =>
    match nameSel text rs 0 with
    | .error e => .error e
    | .ok o => selFinish rs ctx o

/-! ### Buyer flow: confirmation stage (lines 1035-1090) -/

/-- The `confirm_order` stage handler.  On affirmation the source indexes
`quantity` and `stock_id` (commit), then — after `conn.commit()` —
`product_name` and `manager_name` for the message; an error here is a
failed call (the model drops the already-committed effects, which no claim
observes).  The re-prompt message indexes `product_name`. -/
def handleConfirm (text uid : String) (it : ItemD) (ctx : Ctx) : Except Unit Resp :=
  if anySub affirmWords text then
    match it.quantity, it.stock_id with
    | some a, some sid =>
      if it.product_name.isSome && it.manager_name.isSome then
        let oq := orderQty ((firstDigitTok text).map Int.ofNat) a
        let newQty := a - oq
        .ok ⟨"order_confirmed", some (sid, oq), completedCtx,
          [.insertOrder sid uid oq "confirmed",
           if newQty ≤ 0 then .updStockQtyStatus sid 0 "ordered"
           else .updStockQty sid newQty]⟩
      else .error ()
    | _, _ => .error ()
  else if anySub confirmCancelWords text then
    .ok ⟨"cancelled", none, initCtx, []⟩
  else if it.product_name.isSome then
    .ok ⟨"awaiting_confirmation", none, ctx, []⟩
  else .error ()

/-! ### Buyer flow: search, price and expiry branches (lines 1100-1225) -/

/-- The search filter (lines 1109-1131): keyword match against the product
name plus an optional expiry window; survivors carry their `days_left`. -/
def searchFilter (text : String) (stock : List Item) (today : PyDate)
    (mentioned : List String) : List (Item × Int) :=
  let ef : Option Nat :=
    if pyIn "this week" text || pyIn "week" text then some 7
    else if pyIn "today" text then some 1
    else if pyIn "tomorrow" text then some 2
    else if pyIn "soon" text || pyIn "expiring" text then some 5
    else none
  stock.filterMap fun it =>
    let dl := daysLeft today it.expiry_date
    if !mentioned.isEmpty && !(mentioned.any fun kw => pyIn kw (pyLower it.product_name)) then
      none
    else if (match ef with | some f => decide ((f : Int) < dl) | none => false) then
      none
    else some (it, dl)

/-- A placeholder item for impossible list accesses. -/
def emptyItem : Item := ⟨0, "", "", 0, ⟨1, 1, 1⟩, none, "", ""⟩

/-- The search branch (lines 1106-1165). -/
def searchBranch (text : String) (stock : List Item) (today : PyDate)
    (mentioned : List String) : Resp :=
  let found := searchFilter text stock today mentioned
  if found.isEmpty then
    ⟨"no_results", none, { emptyCtx with stage := some "search_failed" }, []⟩
  else
    let sorted := pySort (fun p => p.2) found
    match sorted with
    | [p] => ⟨"single_result", none,
        { emptyCtx with stage := some "confirm_order", selected_item := some (p.1.toD p.2) }, []⟩
    | _ => ⟨"multiple_results", none,
        { emptyCtx with
            stage := some "awaiting_selection",
            results := some ((sorted.take 5).map fun p => p.1.toD p.2) }, []⟩

/-- The price-inquiry branch (lines 1168-1186): a falsy `price` (NULL or 0)
excludes the item; the rest are sorted by price and the head is offered. -/
def priceBranch (stock : List Item) (today : PyDate) : Resp :=
  let priced := stock.filter fun s => priceTruthy s.price
  match priced with
  | [] => ⟨"no_price_info", none, initCtx, []⟩
  | _ :: _ =>
    let withDl := priced.map fun s => (s, daysLeft today s.expiry_date)
    let sorted := pySort (fun p => p.1.price.getD 0) withDl
    let cheapest := sorted.getD 0 (emptyItem, 0)
    ⟨"price_info", none,
      { emptyCtx with
          stage := some "confirm_order",
          selected_item := some (cheapest.1.toD cheapest.2) }, []⟩

/-- The expiry-query branch (lines 1189-1225): items with `days_left ≤ 3`. -/
def expiryBranch (stock : List Item) (today : PyDate) : Resp :=
  let urgent := stock.filterMap fun it =>
    let dl := daysLeft today it.expiry_date
    if dl ≤ 3 then some (it, dl) else none
  match urgent with
  | [] => ⟨"no_urgent", none, initCtx, []⟩
  | _ :: _ =>
    let sorted := pySort (fun p => p.2) urgent
    match sorted with
    | [p] => ⟨"single_urgent", none,
        { emptyCtx with stage := some "confirm_order", selected_item := some (p.1.toD p.2) }, []⟩
    | _ => ⟨"urgent_stock", none,
        { emptyCtx with
            stage := some "awaiting_selection",
            results := some ((sorted.take 5).map fun p => p.1.toD p.2) }, []⟩

/-- `process_middleman_voice_query` (lines 992-1247): stage dispatch, then
the priority-ordered intent rules. -/
def middleman (text uid : String) (stock : List Item) (ctx : Ctx) (today : PyDate) :
    Except Unit Resp :=
  if ctx.stage = some "awaiting_selection" ∧ truthyRes ctx.results = true then
    handleSelection text (ctx.results.getD []) ctx
  else if ctx.stage = some "confirm_order" ∧ ctx.selected_item.isSome = true then
    handleConfirm text uid (ctx.selected_item.getD emptyD) ctx
  else if greetingPhrases.contains (pyTrim text) then
    .ok ⟨"greeting", none, initCtx, []⟩
  else
    let mentioned := productKeywords.filter fun kw => pyIn kw text
    if anySub searchWordsMid text || !mentioned.isEmpty then
      .ok (searchBranch text stock today mentioned)
    else if anySub priceWords text then
      .ok (priceBranch stock today)
    else if anySub expiryWordsMid text then
      .ok (expiryBranch stock today)
    else if anySub midCancelWords text then
      .ok ⟨"cancelled", none, initCtx, []⟩
    else if anySub midHelpWords text then
      .ok ⟨"help", none, initCtx, []⟩
    else
      .ok ⟨"default", none, initCtx, []⟩

/-! ### Seller flow: natural-language field parsers -/

/-- Month scan of the wizard date step: last month word wins (dict-key
membership is an exact word match). -/
def monthOf (text : String) : Option Nat :=
  (pySplit text).foldl
    (fun acc w => match monthWords.lookup w with | some m => some m | none => acc) none

/-- Day-of-month scan: last digit word in `1..31` wins. -/
def dayOf (text : String) : Option Nat :=
  (pySplit text).foldl
    (fun acc w =>
      if pyIsDigit w ∧ 1 ≤ pyToNat w ∧ pyToNat w ≤ 31 then some (pyToNat w) else acc)
    none

/-- The `expiry_date` resolution (lines 868-910), in source order: literal
`today`/`tomorrow`, `next week`/`in a week`, the `in`+`day` substring pair
with an embedded number, else a month name and a day-of-month with the
year rolled forward when that month/day already passed this year;
`none` is the unparseable case (re-prompt). -/
def parseExpiry (text : String) (today : PyDate) : Option PyDate :=
  if pyIn "today" text then some today
  else if pyIn "tomorrow" text then some (addDays today 1)
  else if pyIn "next week" text || pyIn "in a week" text then some (addDays today 7)
  else if pyIn "in" text && pyIn "day" text then
    (firstDigitTok text).map (addDays today)
  else
    match monthOf text, dayOf text with
    | some m, some d =>
      let y := if m < today.month ∨ (m = today.month ∧ d < today.day) then
        today.year + 1 else today.year
      if validDate y m d then some ⟨y, m, d⟩ else none
    | _, _ => none

/-- Number-word lookup of the wizard quantity step (substring match, dict
order). -/
def numWordLookup (text : String) : Option Nat :=
  numberWordsWiz.findSome? fun p => if pyIn p.1 text then some p.2 else none

/-- Worker deleting every occurrence of `pat` (Python `replace(pat, '')`);
the fuel starts at the list length, enough since each step consumes at
least one character. -/
def delSubGo : Nat → List Char → List Char → List Char
  | _, _, [] => []
  | 0, _, l => l
  | fuel + 1, pat, l =>
    match l with
    | [] => []
    | c :: cs =>
      if listPre pat l && !pat.isEmpty then delSubGo fuel pat (l.drop pat.length)
      else c :: delSubGo fuel pat cs

/-- Delete every occurrence of `pat` from `s`. -/
def delSub (pat s : String) : String := ⟨delSubGo s.data.length pat.data s.data⟩

/-- Strip currency symbols and words before price extraction (line 934). -/
def stripCurrency (s : String) : String :=
  delSub "rupee" (delSub "rupees" (delSub "$" (delSub "₹" s)))

/-- Numeric value of a digit run. -/
def digitsVal (ds : List Char) : Nat := ds.foldl (fun a c => a * 10 + (c.toNat - 48)) 0

/-- A token Python `float()` accepts, as a rational.  Modelled for plain
decimal numerals with an optional sign and decimal point; the source also
accepts exponent/`inf`/`nan` forms, which no lexicon word or claim
exercises. -/
def parseDecTok (w : String) : Option Rat :=
  let cs := w.data
  let neg : Bool := match cs with | '-' :: _ => true | _ => false
  let body : List Char := match cs with
    | '-' :: r => r
    | '+' :: r => r
    | r => r
  let intPart := body.takeWhile (· != '.')
  let dotPart := body.dropWhile (· != '.')
  let sgn : Rat := if neg then -1 else 1
  match dotPart with
  | [] =>
    if !intPart.isEmpty && intPart.all Char.isDigit then
      some (sgn * (digitsVal intPart : Rat))
    else none
  | _ :: frac =>
    if (frac.all (· != '.') && intPart.all Char.isDigit && frac.all Char.isDigit) &&
        !(intPart.isEmpty && frac.isEmpty) then
      some (sgn * ((digitsVal intPart : Rat) + (digitsVal frac : Rat) / (10 : Rat) ^ frac.length))
    else none

/-- First float-parseable token of the currency-stripped text. -/
def floatTok (text : String) : Option Rat :=
  (pySplit (stripCurrency text)).findSome? parseDecTok

/-! ### Seller flow: the add-stock wizard (`handle_add_stock_flow`) -/

/-- `handle_add_stock_flow` (lines 808-990).  Cancel words win at every
step.  The `product_name` step builds a fresh context; the later steps
mutate the incoming one.  At the confirm step the source re-parses the
stored expiry date with `strptime`, which raises when the key is missing
(forged context): that is the `.error` case.  The inserted row's name,
quantity and price come from `.get` reads and may be `None`. -/
def addStockFlow (text : String) (ctx : Ctx) (uid : String) (today : PyDate) :
    Except Unit Resp :=
  if anySub wizCancelWords text then
    .ok ⟨"cancelled", none, initCtx, []⟩
  else
    let step := ctx.step.getD "product_name"
    if step == "product_name" then
      let pn := pyTitle (pyTrim text)
      if pn.length < 2 then .ok ⟨"retry_product", none, ctx, []⟩
      else .ok ⟨"add_stock_product", none,
        { emptyCtx with
            stage := some "adding_stock", step := some "quantity",
            product_name := some pn }, []⟩
    else if step == "quantity" then
      let q : Option Nat :=
        match firstDigitTok text with
        | some n => if n != 0 then some n else numWordLookup text
        | none => numWordLookup text
      match q with
      | none => .ok ⟨"retry_quantity", none, ctx, []⟩
      | some n =>
        if n == 0 then .ok ⟨"retry_quantity", none, ctx, []⟩
        else .ok ⟨"add_stock_quantity", none,
          { ctx with quantity := some (n : Int), step := some "expiry_date" }, []⟩
    else if step == "expiry_date" then
      match parseExpiry text today with
      | none => .ok ⟨"retry_expiry", none, ctx, []⟩
      | some d => .ok ⟨"add_stock_expiry", none,
          { ctx with expiry_date := some d, step := some "price" }, []⟩
    else if step == "price" then
      let pr : Option Rat :=
        if pyIn "skip" text || pyIn "no price" text || pyTrim text == "no" then none
        else floatTok text
      .ok ⟨"add_stock_confirm", none, { ctx with price := some pr, step := some "confirm" }, []⟩
    else if step == "confirm" then
      if anySub wizAffirmWords text then
        match ctx.expiry_date with
        | none => .error ()
        | some ed =>
          let status := if dateLt ed today then "expired" else "available"
          .ok ⟨"stock_added", none, initCtx,
            [.insertStock uid ctx.product_name ctx.quantity ed ctx.price.join status]⟩
      else .ok ⟨"awaiting_confirm", none, ctx, []⟩
    else .ok ⟨"error", none, initCtx, []⟩

/-! ### Seller flow: the manager dispatcher -/

/-- Quick-add (lines 667-692): first mentioned keyword becomes the product
name; a non-zero embedded number skips the quantity step. -/
def quickAdd (text : String) (mentioned : List String) : Resp :=
  let pn := pyTitle (mentioned.headD "")
  match firstDigitTok text with
  | some q =>
    if q != 0 then
      ⟨"add_stock_quantity", none,
        { emptyCtx with
            stage := some "adding_stock", step := some "expiry_date",
            product_name := some pn, quantity := some (q : Int) }, []⟩
    else
      ⟨"add_stock_product", none,
        { emptyCtx with
            stage := some "adding_stock", step := some "quantity",
            product_name := some pn }, []⟩
  | none =>
    ⟨"add_stock_product", none,
      { emptyCtx with
          stage := some "adding_stock", step := some "quantity",
          product_name := some pn }, []⟩

/-- Seller expiring-items branch (lines 720-750): available items with at
most seven days left. -/
def mgrUrgent (stock : List Item) (today : PyDate) : Resp :=
  let urgent := stock.filterMap fun it =>
    if it.status == "available" then
      let dl := daysLeft today it.expiry_date
      if dl ≤ 7 then some (it, dl) else none
    else none
  if urgent.isEmpty then ⟨"no_urgent", none, initCtx, []⟩
  else ⟨"urgent_items", none, initCtx, []⟩

/-- Seller search branch (lines 753-784): keyword filter over the seller's
own items (all of them when no keyword was mentioned). -/
def mgrSearch (stock : List Item) (today : PyDate) (mentioned : List String) : Resp :=
  let found := stock.filterMap fun it =>
    if mentioned.isEmpty then some (it, daysLeft today it.expiry_date)
    else if mentioned.any (fun kw => pyIn kw (pyLower it.product_name)) then
      some (it, daysLeft today it.expiry_date)
    else none
  if found.isEmpty then ⟨"no_results", none, initCtx, []⟩
  else ⟨"search_results", none, initCtx, []⟩

/-- `process_manager_voice_query` (lines 643-806).  The summary, urgency
and search branches always reset the context to `initial`; their `data`
payloads are not modelled. -/
def manager (text : String) (stock : List Item) (ctx : Ctx) (uid : String)
    (today : PyDate) : Except Unit Resp :=
  if ctx.stage = some "adding_stock" then
    addStockFlow text ctx uid today
  else if greetingPhrases.contains (pyTrim text) then
    .ok ⟨"greeting", none, initCtx, []⟩
  else if anySub addStockPhrases text then
    .ok ⟨"add_stock_start", none,
      { emptyCtx with stage := some "adding_stock", step := some "product_name" }, []⟩
  else
    let mentioned := productKeywords.filter fun kw => pyIn kw text
    if !mentioned.isEmpty && anySub ["add", "create", "new"] text then
      .ok (quickAdd text mentioned)
    else if anySub summaryWords text then
      .ok ⟨"summary", none, initCtx, []⟩
    else if anySub mgrExpiryWords text then
      .ok (mgrUrgent stock today)
    else if !mentioned.isEmpty || anySub mgrSearchWords text then
      .ok (mgrSearch stock today mentioned)
    else if anySub mgrHelpWords text then
      .ok ⟨"help", none, initCtx, []⟩
    else if anySub mgrCancelWords text then
      .ok ⟨"cancelled", none, initCtx, []⟩
    else
      .ok ⟨"default", none, initCtx, []⟩

/-! ### Spec-side formulas for the committed-quantity claim -/

/-- The claim's quantity formula exactly as stated: the requested quantity
is the first embedded digit token *whenever one is present* (even `0`),
else the available quantity. -/
def c1ClaimFormula (req : Option Int) (avail : Int) : Int :=
  let r := req.getD avail
  let q0 := max 10 (Int.fdiv r 10 * 10)
  if q0 ≤ avail then q0
  else if Int.fdiv avail 10 * 10 = 0 then avail
  else Int.fdiv avail 10 * 10

/-- The claim's quantity formula as amended: a digit token `0` is treated
like an absent request (Python truthiness), falling back to the available
quantity. -/
def c1AmendedFormula (req : Option Int) (avail : Int) : Int :=
  let r := match req with
    | some q => if q = 0 then avail else q
    | none => avail
  let q0 := max 10 (Int.fdiv r 10 * 10)
  if q0 ≤ avail then q0
  else if Int.fdiv avail 10 * 10 = 0 then avail
  else Int.fdiv avail 10 * 10

/-! ### Concrete fixtures -/

/-- A fully-populated snapshot: stock id 7, 50 units available. -/
def itFull : ItemD := ⟨some 7, some "Apple", some "Mgr", some 50, some 3, some none⟩

/-- A `confirm_order` context carrying `itFull`. -/
def ctxConfirm : Ctx := { emptyCtx with stage := some "confirm_order", selected_item := some itFull }

/-- A fixed current date. -/
def todayFix : PyDate := ⟨2026, 10, 12⟩

/-- The default fallback response. -/
def respDefault : Resp := ⟨"default", none, initCtx, []⟩

/-! ### Well-formedness of caller contexts -/

/-- A context snapshot carrying every key the buyer flow indexes. -/
def wfD (d : ItemD) : Bool :=
  d.stock_id.isSome && d.product_name.isSome && d.manager_name.isSome &&
    d.quantity.isSome && d.days_left.isSome && d.price.isSome

/-- A context whose carried snapshots are all well-formed. -/
def wfCtx (c : Ctx) : Bool :=
  (match c.results with | some l => l.all wfD | none => true) &&
    (match c.selected_item with | some d => wfD d | none => true)

/-! ### Arithmetic lemmas about the committed quantity -/

/-- Floor division by 10 in these formulas can be read as euclidean
division. -/
lemma fdiv_ten (a : Int) : Int.fdiv a 10 = a / 10 :=
  Int.fdiv_eq_ediv a (by norm_num)

/-- The code's rounding agrees with the amended claim formula for every
request and availability. -/
lemma orderQty_eq_amended (req : Option Int) (avail : Int) :
    orderQty req avail = c1AmendedFormula req avail := by
  unfold orderQty c1AmendedFormula
  rcases req with _ | q <;>
    simp only [fdiv_ten] <;> split_ifs <;> omega

/-- Bounds of the committed quantity whenever the snapshot has positive
availability. -/
lemma orderQty_bounds (req : Option Int) (avail : Int) (h : 0 < avail) :
    orderQty req avail ≤ avail ∧ 0 < orderQty req avail ∧
      (orderQty req avail % 10 = 0 ∨ orderQty req avail = avail) := by
  unfold orderQty
  rcases req with _ | q <;>
    simp only [fdiv_ten] <;> split_ifs <;> omega

/-! ### Reduction of the commit turn -/

/-- Under a `confirm_order` context whose snapshot carries the four keys
the commit path indexes, an affirmation word commits exactly one confirmed
order for `orderQty` units and performs the corresponding stock update. -/
lemma midCommit {text uid : String} {stock : List Item} {today : PyDate} {ctx : Ctx}
    {it : ItemD} {a : Int} {sid : Nat} {pn mn : String}
    (hstage : ctx.stage = some "confirm_order") (hsel : ctx.selected_item = some it)
    (hq : it.quantity = some a) (hsid : it.stock_id = some sid)
    (hpn : it.product_name = some pn) (hmn : it.manager_name = some mn)
    (haff : anySub affirmWords text = true) :
    middleman text uid stock ctx today =
      .ok ⟨"order_confirmed", some (sid, orderQty ((firstDigitTok text).map Int.ofNat) a),
        completedCtx,
        [.insertOrder sid uid (orderQty ((firstDigitTok text).map Int.ofNat) a) "confirmed",
         if a - orderQty ((firstDigitTok text).map Int.ofNat) a ≤ 0 then
           .updStockQtyStatus sid 0 "ordered"
         else .updStockQty sid (a - orderQty ((firstDigitTok text).map Int.ofNat) a)]⟩ := by
  unfold middleman
  rw [if_neg (by simp [hstage]), if_pos (by simp [hstage, hsel])]
  rw [hsel]
  unfold handleConfirm
  rw [haff]
  simp only [Option.getD_some, hq, hsid, hpn, hmn, Option.isSome_some, Bool.and_self,
    if_true]

/-! ### Characterization of the possible turn outcomes -/

/-- The re-prompt of the selection stage echoes the context unchanged. -/
lemma selRepromptChar {rs : List ItemD} {c : Ctx} {r : Resp}
    (h : selReprompt rs c = .ok r) :
    r.action = "selection_prompt" ∧ r.context = c := by
  unfold selReprompt at h
  split at h
  · cases h; exact ⟨rfl, rfl⟩
  · simp at h

/-- Outcomes of the selection continuation. -/
lemma selFinishChar {rs : List ItemD} {c : Ctx} {o : Option Nat} {r : Resp}
    (h : selFinish rs c o = .ok r) :
    r.action = "product_selected" ∨ (r.action = "selection_prompt" ∧ r.context = c) := by
  rcases o with _ | i
  · exact Or.inr (selRepromptChar h)
  · simp only [selFinish] at h
    split at h
    · split at h
      · cases h; exact Or.inl rfl
      · simp at h
    · exact Or.inr (selRepromptChar h)

/-- Outcomes of the `awaiting_selection` handler. -/
lemma selChar {t : String} {rs : List ItemD} {c : Ctx} {r : Resp}
    (h : handleSelection t rs c = .ok r) :
    r.action = "product_selected" ∨ (r.action = "selection_prompt" ∧ r.context = c) := by
  unfold handleSelection at h
  rcases hn : numberSel t with _ | i <;> rw [hn] at h
  · rcases he : nameSel t rs 0 with e | o <;> rw [he] at h
    · simp at h
    · exact selFinishChar h
  · exact selFinishChar h

/-- Outcomes of the `confirm_order` handler. -/
lemma confChar {t u : String} {it : ItemD} {c : Ctx} {r : Resp}
    (h : handleConfirm t u it c = .ok r) :
    (r.action = "order_confirmed" ∧ r.context = completedCtx) ∨
      (r.action = "cancelled" ∧ r.context = initCtx) ∨
      (r.action = "awaiting_confirmation" ∧ r.context = c) := by
  unfold handleConfirm at h
  split at h
  · split at h
    · split at h
      · cases h; exact Or.inl ⟨rfl, rfl⟩
      · simp at h
    · simp at h
  · split at h
    · cases h; exact Or.inr (Or.inl ⟨rfl, rfl⟩)
    · split at h
      · cases h; exact Or.inr (Or.inr ⟨rfl, rfl⟩)
      · simp at h

/-- Outcomes of the search branch. -/
lemma searchChar (t : String) (stock : List Item) (d : PyDate) (m : List String) :
    (searchBranch t stock d m).action = "no_results" ∨
      (searchBranch t stock d m).action = "single_result" ∨
      (searchBranch t stock d m).action = "multiple_results" := by
  unfold searchBranch
  dsimp only
  split
  · exact Or.inl rfl
  · split
    · exact Or.inr (Or.inl rfl)
    · exact Or.inr (Or.inr rfl)

/-- Outcomes of the price branch. -/
lemma priceChar (stock : List Item) (d : PyDate) :
    ((priceBranch stock d).action = "no_price_info" ∧ (priceBranch stock d).context = initCtx) ∨
      (priceBranch stock d).action = "price_info" := by
  unfold priceBranch
  dsimp only
  split
  · exact Or.inl ⟨rfl, rfl⟩
  · exact Or.inr rfl

/-- Outcomes of the expiry branch. -/
lemma expiryChar (stock : List Item) (d : PyDate) :
    ((expiryBranch stock d).action = "no_urgent" ∧ (expiryBranch stock d).context = initCtx) ∨
      (expiryBranch stock d).action = "single_urgent" ∨
      (expiryBranch stock d).action = "urgent_stock" := by
  unfold expiryBranch
  dsimp only
  split
  · exact Or.inl ⟨rfl, rfl⟩
  · split
    · exact Or.inr (Or.inl rfl)
    · exact Or.inr (Or.inr rfl)

/-- Master characterization of a buyer turn: every cancel, greeting, help,
no-price, no-urgent or default response resets the context to
`{stage: initial}`; the order-commit response returns `{stage: completed}`;
and a greeting response only arises from an exact greeting phrase. -/
lemma midMain {text uid : String} {stock : List Item} {ctx : Ctx} {today : PyDate} {r : Resp}
    (h : middleman text uid stock ctx today = .ok r) :
    ((r.action = "cancelled" ∨ r.action = "greeting" ∨ r.action = "help" ∨
        r.action = "no_price_info" ∨ r.action = "no_urgent" ∨ r.action = "default") →
      r.context = initCtx) ∧
    (r.action = "order_confirmed" → r.context = completedCtx) ∧
    (r.action = "greeting" → greetingPhrases.contains (pyTrim text) = true) := by
  unfold middleman at h
  split at h
  · -- awaiting_selection handler
    rcases selChar h with h1 | ⟨h1, _⟩ <;>
      exact ⟨fun ha => absurd ha (by rw [h1]; decide),
        fun ha => absurd ha (by rw [h1]; decide),
        fun ha => absurd ha (by rw [h1]; decide)⟩
  · split at h
    · -- confirm_order handler
      rcases confChar h with ⟨h1, h2⟩ | ⟨h1, h2⟩ | ⟨h1, _⟩
      · exact ⟨fun ha => absurd ha (by rw [h1]; decide), fun _ => h2,
          fun ha => absurd ha (by rw [h1]; decide)⟩
      · exact ⟨fun _ => h2, fun ha => absurd ha (by rw [h1]; decide),
          fun ha => absurd ha (by rw [h1]; decide)⟩
      · exact ⟨fun ha => absurd ha (by rw [h1]; decide),
          fun ha => absurd ha (by rw [h1]; decide),
          fun ha => absurd ha (by rw [h1]; decide)⟩
    · split at h
      · -- greeting branch
        rename_i hg
        simp only [Except.ok.injEq] at h
        subst h
        exact ⟨fun _ => rfl, fun ha => absurd ha (by decide), fun _ => hg⟩
      · dsimp only at h
        split at h
        · -- search branch
          simp only [Except.ok.injEq] at h
          subst h
          rcases searchChar text stock today _ with h1 | h1 | h1 <;>
            exact ⟨fun ha => absurd ha (by rw [h1]; decide),
              fun ha => absurd ha (by rw [h1]; decide),
              fun ha => absurd ha (by rw [h1]; decide)⟩
        · split at h
          · -- price branch
            simp only [Except.ok.injEq] at h
            subst h
            rcases priceChar stock today with ⟨h1, h2⟩ | h1
            · exact ⟨fun _ => h2, fun ha => absurd ha (by rw [h1]; decide),
                fun ha => absurd ha (by rw [h1]; decide)⟩
            · exact ⟨fun ha => absurd ha (by rw [h1]; decide),
                fun ha => absurd ha (by rw [h1]; decide),
                fun ha => absurd ha (by rw [h1]; decide)⟩
          · split at h
            · -- expiry branch
              simp only [Except.ok.injEq] at h
              subst h
              rcases expiryChar stock today with ⟨h1, h2⟩ | h1 | h1
              · exact ⟨fun _ => h2, fun ha => absurd ha (by rw [h1]; decide),
                  fun ha => absurd ha (by rw [h1]; decide)⟩
              · exact ⟨fun ha => absurd ha (by rw [h1]; decide),
                  fun ha => absurd ha (by rw [h1]; decide),
                  fun ha => absurd ha (by rw [h1]; decide)⟩
              · exact ⟨fun ha => absurd ha (by rw [h1]; decide),
                  fun ha => absurd ha (by rw [h1]; decide),
                  fun ha => absurd ha (by rw [h1]; decide)⟩
            · split at h
              · -- cancel branch
                simp only [Except.ok.injEq] at h
                subst h
                exact ⟨fun _ => rfl, fun ha => absurd ha (by decide),
                  fun ha => absurd ha (by decide)⟩
              · split at h
                · -- help branch
                  simp only [Except.ok.injEq] at h
                  subst h
                  exact ⟨fun _ => rfl, fun ha => absurd ha (by decide),
                    fun ha => absurd ha (by decide)⟩
                · -- default branch
                  simp only [Except.ok.injEq] at h
                  subst h
                  exact ⟨fun _ => rfl, fun ha => absurd ha (by decide),
                    fun ha => absurd ha (by decide)⟩

/-! ### Claim C1 -/

/-- C1, amended: in the buyer `confirm_order` stage, for every affirmed
reply the committed quantity is `c1AmendedFormula`: the requested quantity
is the first embedded digit token when present *and non-zero* (a `0`
token is falsy in Python and falls back to the full availability), else
the availability `A`; then `q0 = max(10, floor(r/10)*10)`; `q = q0` when
`q0 ≤ A`, else `floor(A/10)*10` unless that is `0`, in which case `A`.
In particular requested 23 with A=50 commits 20, requested 7 with A=50
commits 10, requested 45 with A=40 commits 40. -/
theorem c1_confirm_quantity :
    (∀ (req : Option Int) (avail : Int), orderQty req avail = c1AmendedFormula req avail) ∧
    (orderQty (some 23) 50 = 20 ∧ orderQty (some 7) 50 = 10 ∧ orderQty (some 45) 40 = 40) ∧
    ∀ (text uid : String) (stock : List Item) (today : PyDate) (ctx : Ctx)
      (it : ItemD) (a : Int) (sid : Nat) (pn mn : String),
      ctx.stage = some "confirm_order" → ctx.selected_item = some it →
      it.quantity = some a → it.stock_id = some sid → it.product_name = some pn →
      it.manager_name = some mn → anySub affirmWords text = true →
      ∃ r, middleman text uid stock ctx today = .ok r ∧ r.action = "order_confirmed" ∧
        r.order = some (sid, c1AmendedFormula ((firstDigitTok text).map Int.ofNat) a) := by
  refine ⟨orderQty_eq_amended, ⟨by decide, by decide, by decide⟩, ?_⟩
  intro text uid stock today ctx it a sid pn mn hstage hsel hq hsid hpn hmn haff
  exact ⟨_, midCommit hstage hsel hq hsid hpn hmn haff, rfl,
    by rw [← orderQty_eq_amended]⟩

/-- Witness for C1 at a concrete commit: reply "yes 23" against 50
available units commits `c1AmendedFormula (some 23) 50` units. -/
theorem c1_confirm_quantity_witness :
    ∃ r, middleman "yes 23" "m1" [] ctxConfirm todayFix = .ok r ∧
      r.action = "order_confirmed" ∧
      r.order = some (7, c1AmendedFormula ((firstDigitTok "yes 23").map Int.ofNat) 50) :=
  c1_confirm_quantity.2.2 "yes 23" "m1" [] todayFix ctxConfirm itFull 50 7 "Apple" "Mgr"
    rfl rfl rfl rfl rfl rfl (by decide)

/-- Counterexample to C1 as stated: the reply "yes 0" carries the digit
token `0`, so the claim's formula yields 10, but the code (Python
truthiness) falls back to the full availability and commits 50. -/
theorem c1_counterexample :
    middleman "yes 0" "m1" [] ctxConfirm todayFix =
      .ok ⟨"order_confirmed", some (7, 50), completedCtx,
        [.insertOrder 7 "m1" 50 "confirmed", .updStockQtyStatus 7 0 "ordered"]⟩ ∧
    c1ClaimFormula (some 0) 50 = 10 ∧ (50 : Int) ≠ 10 :=
  ⟨by decide, by decide, by decide⟩

/-! ### Claim C2 -/

/-- C2: every confirmed buyer order inserts exactly one confirmed Order
row with the snapshot's stock id, the buyer id and the committed quantity
`q`; then, when `A - q ≤ 0`, the stock row is set to quantity 0 with
status `ordered`, otherwise only its quantity column is written, with
`A - q`. -/
theorem c2_commit_effects :
    ∀ (text uid : String) (stock : List Item) (today : PyDate) (ctx : Ctx)
      (it : ItemD) (a : Int) (sid : Nat) (pn mn : String),
      ctx.stage = some "confirm_order" → ctx.selected_item = some it →
      it.quantity = some a → it.stock_id = some sid → it.product_name = some pn →
      it.manager_name = some mn → anySub affirmWords text = true →
      ∃ r, middleman text uid stock ctx today = .ok r ∧ r.action = "order_confirmed" ∧
        r.effects =
          [Effect.insertOrder sid uid (orderQty ((firstDigitTok text).map Int.ofNat) a)
            "confirmed",
           if a - orderQty ((firstDigitTok text).map Int.ofNat) a ≤ 0 then
             Effect.updStockQtyStatus sid 0 "ordered"
           else Effect.updStockQty sid (a - orderQty ((firstDigitTok text).map Int.ofNat) a)] := by
  intro text uid stock today ctx it a sid pn mn hstage hsel hq hsid hpn hmn haff
  exact ⟨_, midCommit hstage hsel hq hsid hpn hmn haff, rfl, rfl⟩

/-- Witness for C2: the spec's own example — 10 units available, 10
requested — inserts one confirmed order and flips the stock row to
quantity 0, status `ordered`. -/
theorem c2_commit_effects_witness :
    ∃ r, middleman "yes 10" "m1" []
        ({ emptyCtx with
            stage := some "confirm_order",
            selected_item := some ⟨some 7, some "Apple", some "Mgr", some 10, some 3, some none⟩ })
        todayFix = .ok r ∧ r.action = "order_confirmed" ∧
      r.effects =
        [Effect.insertOrder 7 "m1" (orderQty ((firstDigitTok "yes 10").map Int.ofNat) 10)
          "confirmed",
         if (10 : Int) - orderQty ((firstDigitTok "yes 10").map Int.ofNat) 10 ≤ 0 then
           Effect.updStockQtyStatus 7 0 "ordered"
         else Effect.updStockQty 7 (10 - orderQty ((firstDigitTok "yes 10").map Int.ofNat) 10)] :=
  c2_commit_effects "yes 10" "m1" [] todayFix _
    ⟨some 7, some "Apple", some "Mgr", some 10, some 3, some none⟩ 10 7 "Apple" "Mgr"
    rfl rfl rfl rfl rfl rfl (by decide)

/-! ### Claim C3 -/

/-- C3, amended: every buyer turn that cancels, greets, offers help,
reports missing pricing, reports no urgent stock, or falls through to the
default reply returns exactly the context `{stage: initial}`; the turn
that commits a confirmed buyer order returns `{stage: completed}` instead
of `{stage: initial}` (the stage is not a mid-flow stage, so the next
turn treats it like `initial`). -/
theorem c3_context_reset :
    ∀ (text uid : String) (stock : List Item) (ctx : Ctx) (today : PyDate) (r : Resp),
      middleman text uid stock ctx today = .ok r →
      ((r.action = "cancelled" ∨ r.action = "greeting" ∨ r.action = "help" ∨
          r.action = "no_price_info" ∨ r.action = "no_urgent" ∨ r.action = "default") →
        r.context = initCtx) ∧
      (r.action = "order_confirmed" → r.context = completedCtx) :=
  fun _ _ _ _ _ _ h => ⟨(midMain h).1, (midMain h).2.1⟩

/-- Witness for C3 at a concrete fall-through turn. -/
theorem c3_context_reset_witness :
    ((respDefault.action = "cancelled" ∨ respDefault.action = "greeting" ∨
        respDefault.action = "help" ∨ respDefault.action = "no_price_info" ∨
        respDefault.action = "no_urgent" ∨ respDefault.action = "default") →
      respDefault.context = initCtx) ∧
    (respDefault.action = "order_confirmed" → respDefault.context = completedCtx) :=
  c3_context_reset "zzz" "m1" [] emptyCtx todayFix respDefault (by decide)

/-- Counterexample to C3 as stated: the order-commit turn hands back the
context `{stage: "completed"}`, which is not `{stage: "initial"}`. -/
theorem c3_counterexample :
    middleman "yes" "m1" [] ctxConfirm todayFix =
      .ok ⟨"order_confirmed", some (7, 50), completedCtx,
        [.insertOrder 7 "m1" 50 "confirmed", .updStockQtyStatus 7 0 "ordered"]⟩ ∧
    completedCtx ≠ initCtx :=
  ⟨by decide, by decide⟩

/-! ### Claim C4: totality under well-formed contexts -/

/-- The name scan succeeds when every candidate has a `product_name`. -/
lemma nameSelTotal {t : String} :
    ∀ (rs : List ItemD) (i : Nat), (∀ d ∈ rs, d.product_name.isSome = true) →
      ∃ o, nameSel t rs i = .ok o := by
  intro rs
  induction rs with
  | nil => exact fun i _ => ⟨none, rfl⟩
  | cons a l ih =>
    intro i hwf
    obtain ⟨pn, hpn⟩ := Option.isSome_iff_exists.mp (hwf a (List.mem_cons_self a l))
    unfold nameSel
    rw [hpn]
    dsimp only
    split
    · exact ⟨some i, rfl⟩
    · exact ih (i + 1) fun d hd => hwf d (List.mem_cons_of_mem a hd)

/-- The selection re-prompt succeeds when every candidate has a
`product_name`. -/
lemma selRepromptTotal {rs : List ItemD} {c : Ctx}
    (hwf : ∀ d ∈ rs, d.product_name.isSome = true) :
    ∃ r, selReprompt rs c = .ok r := by
  unfold selReprompt
  rw [if_pos]
  · exact ⟨_, rfl⟩
  · exact List.all_eq_true.mpr fun d hd => hwf d (List.take_subset 5 rs hd)

/-- A well-formed snapshot passes the selection-message key reads. -/
lemma wfD_selAccess {d : ItemD} (h : wfD d = true) : selAccess d = true := by
  unfold wfD at h
  unfold selAccess
  simp only [Bool.and_eq_true] at h ⊢
  obtain ⟨⟨⟨⟨⟨_, hpn⟩, hmn⟩, hq⟩, hdl⟩, hpr⟩ := h
  exact ⟨⟨⟨⟨hpn, hmn⟩, hq⟩, hpr⟩, hdl⟩

/-- The selection continuation succeeds on well-formed candidates. -/
lemma selFinishTotal {rs : List ItemD} {c : Ctx} {o : Option Nat}
    (hwf : ∀ d ∈ rs, wfD d = true) : ∃ r, selFinish rs c o = .ok r := by
  have hpn : ∀ d ∈ rs, d.product_name.isSome = true := by
    intro d hd
    have := hwf d hd
    unfold wfD at this
    simp only [Bool.and_eq_true] at this
    exact this.1.1.1.1.2
  rcases o with _ | i
  · exact selRepromptTotal hpn
  · simp only [selFinish]
    split
    · rename_i hlt
      rw [if_pos]
      · exact ⟨_, rfl⟩
      · refine wfD_selAccess (hwf _ ?_)
        rw [List.getD_eq_getElem rs emptyD hlt]
        exact List.getElem_mem hlt
    · exact selRepromptTotal hpn

/-- The `awaiting_selection` handler succeeds on well-formed candidates. -/
lemma handleSelectionTotal {t : String} {rs : List ItemD} {c : Ctx}
    (hwf : ∀ d ∈ rs, wfD d = true) : ∃ r, handleSelection t rs c = .ok r := by
  unfold handleSelection
  rcases hn : numberSel t with _ | i
  · have hpn : ∀ d ∈ rs, d.product_name.isSome = true := by
      intro d hd
      have := hwf d hd
      unfold wfD at this
      simp only [Bool.and_eq_true] at this
      exact this.1.1.1.1.2
    obtain ⟨o, ho⟩ := nameSelTotal rs 0 hpn
    rw [ho]
    exact selFinishTotal hwf
  · exact selFinishTotal hwf

/-- The `confirm_order` handler succeeds on a well-formed snapshot. -/
lemma handleConfirmTotal {t u : String} {it : ItemD} {c : Ctx}
    (hwf : wfD it = true) : ∃ r, handleConfirm t u it c = .ok r := by
  unfold wfD at hwf
  simp only [Bool.and_eq_true] at hwf
  obtain ⟨⟨⟨⟨⟨hsid, hpn⟩, hmn⟩, hq⟩, hdl⟩, hpr⟩ := hwf
  obtain ⟨a, ha⟩ := Option.isSome_iff_exists.mp hq
  obtain ⟨sid, hs⟩ := Option.isSome_iff_exists.mp hsid
  unfold handleConfirm
  by_cases haff : anySub affirmWords t = true
  · rw [if_pos haff, ha, hs]
    dsimp only
    rw [if_pos (by rw [Bool.and_eq_true]; exact ⟨hpn, hmn⟩)]
    exact ⟨_, rfl⟩
  · rw [if_neg haff]
    by_cases hcan : anySub confirmCancelWords t = true
    · rw [if_pos hcan]
      exact ⟨_, rfl⟩
    · rw [if_neg hcan, if_pos hpn]
      exact ⟨_, rfl⟩

/-- C4, amended: for every input text and every caller context whose
carried snapshots are well-formed (every indexed key present), the buyer
turn returns a normal response and never fails; a forged context with
missing snapshot keys can instead make the call raise (see the
counterexample). -/
theorem c4_no_failure :
    ∀ (text uid : String) (stock : List Item) (ctx : Ctx) (today : PyDate),
      wfCtx ctx = true → ∃ r, middleman text uid stock ctx today = .ok r := by
  intro text uid stock ctx today hwf
  unfold wfCtx at hwf
  rw [Bool.and_eq_true] at hwf
  unfold middleman
  split
  · rename_i hg
    rcases hres : ctx.results with _ | l
    · rw [hres] at hg
      exact absurd hg.2 (by decide)
    · have h1 := hwf.1
      rw [hres] at h1
      simp only [List.all_eq_true] at h1
      simp only [Option.getD_some]
      exact handleSelectionTotal h1
  · split
    · rename_i hg
      rcases hsel : ctx.selected_item with _ | d
      · rw [hsel] at hg
        simp at hg
      · have h2 := hwf.2
        rw [hsel] at h2
        simp only [Option.getD_some]
        exact handleConfirmTotal h2
    · split
      · exact ⟨_, rfl⟩
      · dsimp only
        split
        · exact ⟨_, rfl⟩
        · split
          · exact ⟨_, rfl⟩
          · split
            · exact ⟨_, rfl⟩
            · split
              · exact ⟨_, rfl⟩
              · split
                · exact ⟨_, rfl⟩
                · exact ⟨_, rfl⟩

/-- Witness for C4 at a concrete well-formed turn. -/
theorem c4_no_failure_witness :
    ∃ r, middleman "hello" "m1" [] initCtx todayFix = .ok r :=
  c4_no_failure "hello" "m1" [] initCtx todayFix (by decide)

/-- Counterexample to C4 as stated: an `awaiting_selection` context whose
single candidate is the empty dictionary makes the turn raise a KeyError
(the call fails) instead of degrading to a re-prompt. -/
theorem c4_counterexample :
    middleman "1" "m1" []
      ({ emptyCtx with stage := some "awaiting_selection", results := some [emptyD] })
      todayFix = .error () :=
  by decide

/-! ### Claim C6 -/

/-- No wizard outcome is a greeting. -/
lemma wizChar {t : String} {c : Ctx} {u : String} {d : PyDate} {r : Resp}
    (h : addStockFlow t c u d = .ok r) : r.action ≠ "greeting" := by
  unfold addStockFlow at h
  split at h
  · cases h; simp
  · dsimp only at h
    split at h
    · split at h <;> (cases h; simp)
    · split at h
      · split at h
        · cases h; simp
        · split at h <;> (cases h; simp)
      · split at h
        · split at h <;> (cases h; simp)
        · split at h
          · cases h; simp
          · split at h
            · split at h
              · split at h
                · simp at h
                · cases h; simp
              · cases h; simp
            · cases h; simp

/-- The quick-add branch produces one of its two wizard-seeding actions. -/
lemma quickAddChar (t : String) (m : List String) :
    (quickAdd t m).action = "add_stock_quantity" ∨
      (quickAdd t m).action = "add_stock_product" := by
  unfold quickAdd
  rcases firstDigitTok t with _ | q
  · exact Or.inr rfl
  · dsimp only
    split
    · exact Or.inl rfl
    · exact Or.inr rfl

/-- The action of a two-way conditional is one of its branches' actions. -/
lemma iteActionChar {c : Prop} [Decidable c] {x y : Resp} :
    (if c then x else y).action = x.action ∨ (if c then x else y).action = y.action := by
  split
  · exact Or.inl rfl
  · exact Or.inr rfl

/-- Outcomes of the seller urgency branch. -/
lemma mgrUrgentChar (stock : List Item) (d : PyDate) :
    (mgrUrgent stock d).action = "no_urgent" ∨ (mgrUrgent stock d).action = "urgent_items" := by
  unfold mgrUrgent
  dsimp only
  exact iteActionChar

/-- Outcomes of the seller search branch. -/
lemma mgrSearchChar (stock : List Item) (d : PyDate) (m : List String) :
    (mgrSearch stock d m).action = "no_results" ∨
      (mgrSearch stock d m).action = "search_results" := by
  unfold mgrSearch
  dsimp only
  exact iteActionChar

/-- A seller turn only answers with the greeting action when the text is
an exact greeting phrase. -/
lemma mgrGreetOnly {text : String} {stock : List Item} {ctx : Ctx} {uid : String}
    {today : PyDate} {r : Resp} (h : manager text stock ctx uid today = .ok r)
    (hact : r.action = "greeting") : greetingPhrases.contains (pyTrim text) = true := by
  unfold manager at h
  split at h
  · exact absurd hact (wizChar h)
  · split at h
    · rename_i hcond
      exact hcond
    · exfalso
      split at h
      · cases h; simp at hact
      · dsimp only at h
        split at h
        · cases h
          rcases quickAddChar text _ with h1 | h1 <;> rw [hact] at h1 <;> simp at h1
        · split at h
          · cases h; simp at hact
          · split at h
            · cases h
              rcases mgrUrgentChar stock today with h1 | h1 <;> rw [hact] at h1 <;> simp at h1
            · split at h
              · cases h
                rcases mgrSearchChar stock today _ with h1 | h1 <;> rw [hact] at h1 <;>
                  simp at h1
              · split at h
                · cases h; simp at hact
                · split at h
                  · cases h; simp at hact
                  · cases h; simp at hact

/-- No product keyword occurs inside any greeting phrase. -/
lemma kwNotInGreeting :
    ∀ kw ∈ productKeywords, ∀ g ∈ greetingPhrases, pyIn kw g = false := by decide

/-- C6: from a non-mid-flow stage, an exact greeting phrase (which can
contain no product keyword) yields the greeting response in both flows;
and any (trimmed) text containing a product keyword never yields the
greeting response, in either flow, from any stage. -/
theorem c6_greeting_priority :
    (∀ (text : String) (stock : List Item) (ctx : Ctx) (uid : String) (today : PyDate),
      ctx.stage ≠ some "adding_stock" → greetingPhrases.contains (pyTrim text) = true →
      manager text stock ctx uid today = .ok ⟨"greeting", none, initCtx, []⟩) ∧
    (∀ (text uid : String) (stock : List Item) (ctx : Ctx) (today : PyDate),
      ctx.stage ≠ some "awaiting_selection" → ctx.stage ≠ some "confirm_order" →
      greetingPhrases.contains (pyTrim text) = true →
      middleman text uid stock ctx today = .ok ⟨"greeting", none, initCtx, []⟩) ∧
    (∀ (text : String) (stock : List Item) (ctx : Ctx) (uid : String) (today : PyDate)
      (kw : String) (r : Resp),
      pyTrim text = text → kw ∈ productKeywords → pyIn kw text = true →
      manager text stock ctx uid today = .ok r → r.action ≠ "greeting") ∧
    (∀ (text uid : String) (stock : List Item) (ctx : Ctx) (today : PyDate)
      (kw : String) (r : Resp),
      pyTrim text = text → kw ∈ productKeywords → pyIn kw text = true →
      middleman text uid stock ctx today = .ok r → r.action ≠ "greeting") := by
  refine ⟨?_, ?_, ?_, ?_⟩
  · intro text stock ctx uid today hstage hg
    unfold manager
    rw [if_neg hstage, if_pos hg]
  · intro text uid stock ctx today h1 h2 hg
    unfold middleman
    rw [if_neg (fun hc => h1 hc.1), if_neg (fun hc => h2 hc.1), if_pos hg]
  · intro text stock ctx uid today kw r htrim hkw hin h hact
    have hcont := mgrGreetOnly h hact
    rw [htrim] at hcont
    have hmem : text ∈ greetingPhrases := by simpa using hcont
    have := kwNotInGreeting kw hkw text hmem
    rw [hin] at this
    exact absurd this (by decide)
  · intro text uid stock ctx today kw r htrim hkw hin h hact
    have hcont := (midMain h).2.2 hact
    rw [htrim] at hcont
    have hmem : text ∈ greetingPhrases := by simpa using hcont
    have := kwNotInGreeting kw hkw text hmem
    rw [hin] at this
    exact absurd this (by decide)

/-- Witness for C6: "hello" greets in both flows; "apple" never greets. -/
theorem c6_greeting_priority_witness :
    manager "hello" [] initCtx "u1" todayFix = .ok ⟨"greeting", none, initCtx, []⟩ ∧
    middleman "hello" "m1" [] initCtx todayFix = .ok ⟨"greeting", none, initCtx, []⟩ ∧
    Resp.action ⟨"no_results", none, { emptyCtx with stage := some "search_failed" }, []⟩ ≠
      "greeting" :=
  ⟨c6_greeting_priority.1 "hello" [] initCtx "u1" todayFix (by decide) (by decide),
   c6_greeting_priority.2.1 "hello" "m1" [] initCtx todayFix (by decide) (by decide) (by decide),
   c6_greeting_priority.2.2.2 "apple" "m1" [] initCtx todayFix "apple"
     ⟨"no_results", none, { emptyCtx with stage := some "search_failed" }, []⟩
     (by decide) (by decide) (by decide) (by decide)⟩

/-! ### Claim C7 -/

/-- C7: the wizard's expiry step resolves the text in the source's fixed
order — literal "today"/"tomorrow" first; then "next week"/"in a week"
giving today+7; then the "in …day" pattern with an embedded number N
giving today+N (so "in 10 days" from a fixed today is exactly today+10);
otherwise a month name plus a day-of-month number, with the year rolled
to next year when that month/day has already passed this year (so
"march 1" when today is 2026-10-12 gives 2027-03-01); an unparseable
text re-prompts at the same step with the context unchanged. -/
theorem c7_expiry_parsing :
    (∀ (text : String) (today : PyDate), pyIn "today" text = true →
      parseExpiry text today = some today) ∧
    (∀ (text : String) (today : PyDate), pyIn "today" text = false →
      pyIn "tomorrow" text = true → parseExpiry text today = some (addDays today 1)) ∧
    (∀ (text : String) (today : PyDate), pyIn "today" text = false →
      pyIn "tomorrow" text = false →
      (pyIn "next week" text || pyIn "in a week" text) = true →
      parseExpiry text today = some (addDays today 7)) ∧
    (∀ (text : String) (today : PyDate) (n : Nat), pyIn "today" text = false →
      pyIn "tomorrow" text = false → pyIn "next week" text = false →
      pyIn "in a week" text = false → pyIn "in" text = true → pyIn "day" text = true →
      firstDigitTok text = some n → parseExpiry text today = some (addDays today n)) ∧
    (parseExpiry "in 10 days" ⟨2026, 3, 5⟩ = some (addDays ⟨2026, 3, 5⟩ 10) ∧
      addDays ⟨2026, 3, 5⟩ 10 = ⟨2026, 3, 15⟩) ∧
    (∀ (text : String) (today : PyDate) (m d : Nat), pyIn "today" text = false →
      pyIn "tomorrow" text = false → pyIn "next week" text = false →
      pyIn "in a week" text = false → (pyIn "in" text && pyIn "day" text) = false →
      monthOf text = some m → dayOf text = some d →
      (m < today.month ∨ (m = today.month ∧ d < today.day)) →
      validDate (today.year + 1) m d = true →
      parseExpiry text today = some ⟨today.year + 1, m, d⟩) ∧
    (parseExpiry "march 1" ⟨2026, 10, 12⟩ = some ⟨2027, 3, 1⟩) ∧
    (∀ (text : String) (stock : List Item) (ctx : Ctx) (uid : String) (today : PyDate),
      ctx.stage = some "adding_stock" → ctx.step = some "expiry_date" →
      anySub wizCancelWords text = false → parseExpiry text today = none →
      manager text stock ctx uid today = .ok ⟨"retry_expiry", none, ctx, []⟩) := by
  refine ⟨?_, ?_, ?_, ?_, ⟨by decide, by decide⟩, ?_, by decide, ?_⟩
  · intro text today h
    unfold parseExpiry
    rw [if_pos h]
  · intro text today h1 h2
    unfold parseExpiry
    rw [if_neg (by rw [h1]; exact Bool.false_ne_true), if_pos h2]
  · intro text today h1 h2 h3
    unfold parseExpiry
    rw [if_neg (by rw [h1]; exact Bool.false_ne_true),
      if_neg (by rw [h2]; exact Bool.false_ne_true), if_pos h3]
  · intro text today n h1 h2 h3 h4 h5 h6 htok
    unfold parseExpiry
    rw [if_neg (by rw [h1]; exact Bool.false_ne_true),
      if_neg (by rw [h2]; exact Bool.false_ne_true),
      if_neg (by rw [h3, h4]; exact Bool.false_ne_true),
      if_pos (by rw [h5, h6]; rfl), htok]
    rfl
  · intro text today m d h1 h2 h3 h4 h5 hm hd hroll hvalid
    unfold parseExpiry
    rw [if_neg (by rw [h1]; exact Bool.false_ne_true),
      if_neg (by rw [h2]; exact Bool.false_ne_true),
      if_neg (by rw [h3, h4]; exact Bool.false_ne_true),
      if_neg (by rw [h5]; exact Bool.false_ne_true), hm, hd]
    dsimp only
    rw [if_pos hroll, if_pos hvalid]
  · intro text stock ctx uid today hstage hstep hcan hparse
    unfold manager
    rw [if_pos hstage]
    unfold addStockFlow
    rw [if_neg (by rw [hcan]; exact Bool.false_ne_true), hstep]
    dsimp only
    rw [if_neg (by decide), if_neg (by decide), if_pos (by decide), hparse]

/-- Witness for C7: the literal "today" resolves to today, and an
unparseable text at the expiry step re-prompts with the drafted context
unchanged. -/
theorem c7_expiry_parsing_witness :
    parseExpiry "today" todayFix = some todayFix ∧
    manager "gibberish" []
      ({ emptyCtx with
          stage := some "adding_stock", step := some "expiry_date",
          product_name := some "Apple", quantity := some (5 : Int) }) "u1" todayFix =
      .ok ⟨"retry_expiry", none,
        { emptyCtx with
            stage := some "adding_stock", step := some "expiry_date",
            product_name := some "Apple", quantity := some (5 : Int) }, []⟩ :=
  ⟨c7_expiry_parsing.1 "today" todayFix (by decide),
   c7_expiry_parsing.2.2.2.2.2.2.2 "gibberish" [] _ "u1" todayFix rfl rfl
     (by decide) (by decide)⟩

/-! ### Claim C10 -/

/-- Membership through sorted insertion. -/
lemma insEnd_mem {α β : Type*} [LinearOrder β] {key : α → β} {x a : α} {l : List α} :
    a ∈ insEnd key x l ↔ a = x ∨ a ∈ l := by
  induction l with
  | nil => simp [insEnd]
  | cons y ys ih =>
    unfold insEnd
    split
    · rw [List.mem_cons, ih, List.mem_cons]
      tauto
    · simp only [List.mem_cons]

/-- Membership through the sort's fold. -/
lemma pySortGo_mem {α β : Type*} [LinearOrder β] {key : α → β} :
    ∀ (l acc : List α) (a : α),
      a ∈ l.foldl (fun acc x => insEnd key x acc) acc ↔ a ∈ acc ∨ a ∈ l := by
  intro l
  induction l with
  | nil => simp
  | cons x xs ih =>
    intro acc a
    simp only [List.foldl_cons]
    rw [ih, insEnd_mem, List.mem_cons]
    tauto

/-- The stable sort keeps exactly the original elements. -/
lemma pySort_mem {α β : Type*} [LinearOrder β] {key : α → β} {l : List α} {a : α} :
    a ∈ pySort key l ↔ a ∈ l := by
  unfold pySort
  rw [pySortGo_mem]
  simp

/-- Sorted insertion adds one element. -/
lemma insEnd_length {α β : Type*} [LinearOrder β] {key : α → β} (x : α) (l : List α) :
    (insEnd key x l).length = l.length + 1 := by
  induction l with
  | nil => rfl
  | cons y ys ih =>
    unfold insEnd
    split
    · simp only [List.length_cons, ih]
    · simp [List.length_cons]

/-- Length through the sort's fold. -/
lemma pySortGo_length {α β : Type*} [LinearOrder β] {key : α → β} :
    ∀ (l acc : List α),
      (l.foldl (fun acc x => insEnd key x acc) acc).length = acc.length + l.length := by
  intro l
  induction l with
  | nil => simp
  | cons x xs ih =>
    intro acc
    simp only [List.foldl_cons]
    rw [ih, insEnd_length]
    simp only [List.length_cons]
    omega

/-- The stable sort preserves length. -/
lemma pySort_length {α β : Type*} [LinearOrder β] (key : α → β) (l : List α) :
    (pySort key l).length = l.length := by
  unfold pySort
  rw [pySortGo_length]
  simp

/-- C10: the buyer price query treats a zero price like a missing price —
such items are excluded from the cheapest-item computation, an item
offered as the cheapest always has a present non-zero price, and when
every item's price is 0 or NULL the query answers that no pricing
information exists. -/
theorem c10_zero_price_excluded :
    (∀ s : Item, s.price = none ∨ s.price = some 0 → priceTruthy s.price = false) ∧
    (∀ (text uid : String) (stock : List Item) (ctx : Ctx) (today : PyDate),
      ctx.stage ≠ some "awaiting_selection" → ctx.stage ≠ some "confirm_order" →
      greetingPhrases.contains (pyTrim text) = false →
      anySub searchWordsMid text = false →
      (productKeywords.filter fun kw => pyIn kw text) = [] →
      anySub priceWords text = true →
      ∃ r, middleman text uid stock ctx today = .ok r ∧
        ((∀ s ∈ stock, s.price = none ∨ s.price = some 0) →
          r.action = "no_price_info" ∧ r.context = initCtx) ∧
        (∀ d, r.context.selected_item = some d →
          ∃ p : Rat, d.price = some (some p) ∧ p ≠ 0)) := by
  refine ⟨?_, ?_⟩
  · intro s hs
    rcases hs with h | h <;> rw [h] <;> decide
  · intro text uid stock ctx today h1 h2 hg hsw hment hpr
    have hmid : middleman text uid stock ctx today = .ok (priceBranch stock today) := by
      unfold middleman
      rw [if_neg (fun hc => h1 hc.1), if_neg (fun hc => h2 hc.1),
        if_neg (by rw [hg]; exact Bool.false_ne_true)]
      dsimp only
      rw [hment, if_neg (by rw [hsw]; decide), if_pos hpr]
    refine ⟨priceBranch stock today, hmid, ?_, ?_⟩
    · intro hall
      have hfil : stock.filter (fun s => priceTruthy s.price) = [] := by
        rw [List.filter_eq_nil_iff]
        intro s hsm
        rcases hall s hsm with h | h <;> rw [h] <;> decide
      unfold priceBranch
      rw [hfil]
      exact ⟨rfl, rfl⟩
    · intro d hd
      unfold priceBranch at hd
      rcases hfil : stock.filter (fun s => priceTruthy s.price) with _ | ⟨s0, rest⟩ <;>
        rw [hfil] at hd
      · simp [initCtx, emptyCtx] at hd
      · dsimp only at hd
        rw [Option.some.injEq] at hd
        have hlen :
            0 < (pySort (fun p => p.1.price.getD 0)
              ((s0 :: rest).map fun s => (s, daysLeft today s.expiry_date))).length := by
          rw [pySort_length, List.length_map]
          simp
        have hmem :
            (pySort (fun p => p.1.price.getD 0)
                ((s0 :: rest).map fun s => (s, daysLeft today s.expiry_date))).getD 0
              (emptyItem, 0) ∈
              pySort (fun p => p.1.price.getD 0)
                ((s0 :: rest).map fun s => (s, daysLeft today s.expiry_date)) := by
          rw [List.getD_eq_getElem _ _ hlen]
          exact List.getElem_mem hlen
        have hmem2 := pySort_mem.mp hmem
        obtain ⟨s, hsmem, hseq⟩ := List.mem_map.mp hmem2
        have htruthy : priceTruthy s.price = true := by
          have : s ∈ stock.filter (fun s => priceTruthy s.price) := by
            rw [hfil]; exact hsmem
          exact (List.mem_filter.mp this).2
        rcases hp : s.price with _ | p
        · rw [hp] at htruthy
          exact absurd htruthy (by decide)
        · refine ⟨p, ?_, ?_⟩
          · rw [← hd, ← hseq]
            dsimp only [Item.toD]
            rw [hp]
          · rw [hp] at htruthy
            simpa [priceTruthy] using htruthy

/-- Witness for C10: with one zero-priced and one NULL-priced item the
query reports no pricing information; adding a priced item makes it the
cheapest offer. -/
theorem c10_zero_price_excluded_witness :
    ∃ r, middleman "cost" "m1"
        [⟨4, "mg", "Milk", 10, ⟨2026, 10, 14⟩, some 0, "available", "Mgr"⟩,
         ⟨5, "mg", "Bread", 10, ⟨2026, 10, 15⟩, none, "available", "Mgr"⟩]
        initCtx todayFix = .ok r ∧
      ((∀ s ∈ [(⟨4, "mg", "Milk", 10, ⟨2026, 10, 14⟩, some 0, "available", "Mgr"⟩ : Item),
          ⟨5, "mg", "Bread", 10, ⟨2026, 10, 15⟩, none, "available", "Mgr"⟩],
            s.price = none ∨ s.price = some 0) →
        r.action = "no_price_info" ∧ r.context = initCtx) ∧
      (∀ d, r.context.selected_item = some d →
        ∃ p : Rat, d.price = some (some p) ∧ p ≠ 0) :=
  c10_zero_price_excluded.2 "cost" "m1"
    [⟨4, "mg", "Milk", 10, ⟨2026, 10, 14⟩, some 0, "available", "Mgr"⟩,
     ⟨5, "mg", "Bread", 10, ⟨2026, 10, 15⟩, none, "available", "Mgr"⟩]
    initCtx todayFix (by decide) (by decide) (by decide) (by decide) (by decide) (by decide)

/-! ### Claim C9 -/

/-- C9: whenever a buyer confirm turn commits against a snapshot with
positive availability `A`, the committed quantity `q` satisfies `q ≤ A`,
`q > 0`, and `q` is a multiple of 10 or exactly `A`; hence the quantity
written back, `A - q`, is never negative. -/
theorem c9_committed_quantity_bounds :
    ∀ (req : Option Int) (avail : Int), 0 < avail →
      orderQty req avail ≤ avail ∧ 0 < orderQty req avail ∧
        (orderQty req avail % 10 = 0 ∨ orderQty req avail = avail) ∧
        0 ≤ avail - orderQty req avail := by
  intro req avail h
  obtain ⟨h1, h2, h3⟩ := orderQty_bounds req avail h
  exact ⟨h1, h2, h3, by omega⟩

/-! ### Claim C5 -/

/-- C5: a buyer search from a non-mid-flow stage whose filtered candidate
set holds exactly one item transitions directly to `confirm_order` with
that item — carrying its computed `days_left` — as `selected_item`, and
never to `awaiting_selection`. -/
theorem c5_single_match :
    ∀ (text uid : String) (stock : List Item) (today : PyDate) (ctx : Ctx)
      (it : Item) (dl : Int),
      ctx.stage ≠ some "awaiting_selection" → ctx.stage ≠ some "confirm_order" →
      greetingPhrases.contains (pyTrim text) = false →
      (anySub searchWordsMid text ||
        !(productKeywords.filter fun kw => pyIn kw text).isEmpty) = true →
      searchFilter text stock today (productKeywords.filter fun kw => pyIn kw text) =
        [(it, dl)] →
      middleman text uid stock ctx today =
        .ok ⟨"single_result", none,
          { emptyCtx with stage := some "confirm_order", selected_item := some (it.toD dl) },
          []⟩ ∧
      ({ emptyCtx with
          stage := some "confirm_order",
          selected_item := some (it.toD dl) } : Ctx).stage ≠ some "awaiting_selection" := by
  intro text uid stock today ctx it dl h1 h2 hg hs hf
  refine ⟨?_, by simp⟩
  unfold middleman
  rw [if_neg (fun hc => h1 hc.1), if_neg (fun hc => h2 hc.1),
    if_neg (by rw [hg]; exact Bool.false_ne_true)]
  dsimp only
  rw [if_pos hs]
  unfold searchBranch
  rw [hf]
  rfl

/-- Witness for C5 at a one-item search. -/
theorem c5_single_match_witness :
    middleman "find apple" "m1" [⟨3, "mg", "Apples", 40, ⟨2026, 10, 20⟩, some 5, "available", "Mgr"⟩]
      initCtx todayFix =
      .ok ⟨"single_result", none,
        { emptyCtx with
            stage := some "confirm_order",
            selected_item :=
              some ((⟨3, "mg", "Apples", 40, ⟨2026, 10, 20⟩, some 5, "available", "Mgr"⟩ : Item).toD 8) },
        []⟩ :=
  (c5_single_match "find apple" "m1"
    [⟨3, "mg", "Apples", 40, ⟨2026, 10, 20⟩, some 5, "available", "Mgr"⟩] todayFix
    initCtx ⟨3, "mg", "Apples", 40, ⟨2026, 10, 20⟩, some 5, "available", "Mgr"⟩ 8
    (by decide) (by decide) (by decide) (by decide) (by decide)).1

/-! ### Claim C8 -/

/-- C8: at every step of the add-stock wizard, a text containing a cancel
word resets the context to exactly `{stage: "initial"}` — dropping every
drafted field — and inserts nothing. -/
theorem c8_wizard_cancel :
    ∀ (text : String) (stock : List Item) (ctx : Ctx) (uid : String) (today : PyDate),
      ctx.stage = some "adding_stock" → anySub wizCancelWords text = true →
      manager text stock ctx uid today = .ok ⟨"cancelled", none, initCtx, []⟩ := by
  intro text stock ctx uid today hstage hcan
  unfold manager
  rw [if_pos hstage]
  unfold addStockFlow
  rw [hcan]
  rfl

/-- Witness for C8: cancelling mid-wizard with a drafted product name,
quantity and expiry date drops them all. -/
theorem c8_wizard_cancel_witness :
    manager "cancel that" []
      ({ emptyCtx with
          stage := some "adding_stock", step := some "price",
          product_name := some "Apple", quantity := some (30 : Int),
          expiry_date := some ⟨2026, 11, 1⟩ }) "u1" todayFix =
      .ok ⟨"cancelled", none, initCtx, []⟩ :=
  c8_wizard_cancel "cancel that" [] _ "u1" todayFix rfl (by decide)

/-- Witness for C9 at requested 23, available 50. -/
theorem c9_committed_quantity_bounds_witness :
    orderQty (some 23) 50 ≤ 50 ∧ 0 < orderQty (some 23) 50 ∧
      (orderQty (some 23) 50 % 10 = 0 ∨ orderQty (some 23) 50 = 50) ∧
      0 ≤ 50 - orderQty (some 23) 50 :=
  c9_committed_quantity_bounds (some 23) 50 (by norm_num)

end Clearance
